import Mathlib

/-!
Verification of `ydkmaker2.py`: a deck-list-to-YDK converter consisting of a
line parser (`parse_deck_list` with the pattern `card_regex`), a network
identifier resolver (`get_card_id`), a file writer (`write_ydk_file`) and a
small CLI (`main`).  The development below embeds the parsing, resolving and
writing logic shallowly: machine strings become `String`/`List Char`,
the network call becomes an abstract outcome value, and the regular-expression
match is modelled by an explicit leftmost/greedy backtracking search that
mirrors the semantics of Python's `re.match` on this fixed pattern.
-/

/-! ## Character classes and Python string primitives -/

/-- Python whitespace (`str.strip`, `\s`) restricted to the ASCII range:
space, tab, newline, carriage return, vertical tab, form feed. -/
def py_isspace (c : Char) : Bool :=
  c == ' ' || c == '\t' || c == '\n' || c == '\r' || c == '\x0b' || c == '\x0c'

/-- `\d` of the pattern (ASCII digits `'0'`–`'9'`, code points 48–57). -/
def py_isdigit (c : Char) : Bool :=
  48 ≤ c.toNat && c.toNat ≤ 57

/-- The character class `[xX]`. -/
def isXchar (c : Char) : Bool :=
  c == 'x' || c == 'X'

/-- Python `str.strip()` on the character list. -/
def stripChars (cs : List Char) : List Char :=
  ((cs.dropWhile py_isspace).reverse.dropWhile py_isspace).reverse

/-- Python `str.strip()`. -/
def py_strip (s : String) : String :=
  String.mk (stripChars s.data)

/-- Python `str.lower()` (ASCII; only compared against ASCII headers). -/
def py_lower (s : String) : String :=
  String.mk (s.data.map Char.toLower)

/-- Split a character list at `'\n'`; `splitNl cs` always returns one more
segment than there are newlines, so a trailing newline yields a final empty
segment. -/
def splitNl : List Char → List (List Char)
  | [] => [[]]
  | c :: cs =>
    if c = '\n' then [] :: splitNl cs
    else
      match splitNl cs with
      | l :: ls => (c :: l) :: ls
      | [] => [[c]]

/-- Python `str.splitlines()` for `'\n'`-separated text.  (For text with a
trailing `'\n'` Python omits the final empty line; the extra empty line
produced here is inert everywhere below, because both the deck-list parser
and the modelled reader skip blank lines.) -/
def splitlines (s : String) : List String :=
  (splitNl s.data).map String.mk

/-- Python `str.endswith`. -/
def py_endswith (s suffix : String) : Bool :=
  decide (suffix.data <:+ s.data)

/-- Python `int()` on a string of decimal digits. -/
def natOfDigits (s : String) : Nat :=
  s.data.foldl (fun a c => a * 10 + (c.toNat - '0'.toNat)) 0

/-! ## The regular expression `card_regex`

`card_regex = ^(?:\s*(\d+)[xX]?\s*|\s*[xX](\d+)\s*)(.+)$` matched with
`re.match`.  The model below enumerates the candidate splits of each
subpattern in exactly the order Python's backtracking engine tries them
(alternation left first; `\s*`, `\d+`, `.+` greedy, longest first; `[xX]?`
with the character first) and takes the first complete match.  Lines fed to
the pattern come from `splitlines` and therefore contain no `'\n'`, so `.`
is modelled as "any character" with an explicit newline guard. -/

/-- First `some` produced by `f` along a list of candidates. -/
def firstSome (f : α → Option β) : List α → Option β
  | [] => none
  | a :: as =>
    match f a with
    | some b => some b
    | none => firstSome f as

/-- Length of the maximal prefix satisfying `p`. -/
def prefixLen (p : Char → Bool) (cs : List Char) : Nat :=
  (cs.takeWhile p).length

/-- Splits `(taken, rest)` for a greedy `p*`: every prefix of the maximal
`p`-run, longest first. -/
def starSplits (p : Char → Bool) (cs : List Char) : List (List Char × List Char) :=
  (List.range (prefixLen p cs + 1)).reverse.map fun i => (cs.take i, cs.drop i)

/-- Splits `(taken, rest)` for a greedy `\d+`: every nonempty prefix of the
maximal digit run, longest first. -/
def plusDigitSplits (cs : List Char) : List (List Char × List Char) :=
  (List.range (prefixLen py_isdigit cs)).reverse.map fun i =>
    (cs.take (i + 1), cs.drop (i + 1))

/-- Candidate remainders for the optional `[xX]?`: with the character first
(greedy) when it is present. -/
def optXAlternatives (cs : List Char) : List (List Char) :=
  match cs with
  | c :: rest => if isXchar c then [rest, cs] else [cs]
  | [] => [[]]

/-- `\s*(.+)$` on `cs`: greedy whitespace, then `.+` must consume the whole
nonempty newline-free remainder.  Returns the text captured by `(.+)`. -/
def matchWsRest (cs : List Char) : Option (List Char) :=
  firstSome
    (fun pr => if pr.2 ≠ [] ∧ '\n' ∉ pr.2 then some pr.2 else none)
    (starSplits py_isspace cs)

/-- First alternative `\s*(\d+)[xX]?\s*(.+)$`; returns (quantity digits, name). -/
def matchB1 (cs : List Char) : Option (List Char × List Char) :=
  firstSome
    (fun ws1 =>
      firstSome
        (fun ds =>
          firstSome
            (fun r3 => (matchWsRest r3).map fun name => (ds.1, name))
            (optXAlternatives ds.2))
        (plusDigitSplits ws1.2))
    (starSplits py_isspace cs)

/-- Second alternative `\s*[xX](\d+)\s*(.+)$`; returns (quantity digits, name). -/
def matchB2 (cs : List Char) : Option (List Char × List Char) :=
  firstSome
    (fun ws1 =>
      match ws1.2 with
      | c :: rest =>
        if isXchar c then
          firstSome
            (fun ds => (matchWsRest ds.2).map fun name => (ds.1, name))
            (plusDigitSplits rest)
        else none
      | [] => none)
    (starSplits py_isspace cs)

/-- `card_regex.match(line)` followed by `match.group(1) or match.group(2)`
and `match.group(3)`: the quantity digits (from whichever alternative
matched) and the raw name capture. -/
def card_regex_match (line : String) : Option (String × String) :=
  match matchB1 line.data with
  | some (q, name) => some (String.mk q, String.mk name)
  | none =>
    match matchB2 line.data with
    | some (q, name) => some (String.mk q, String.mk name)
    | none => none

/-! ## `get_card_id` -/

/-- Outcome of the one HTTP lookup inside `get_card_id`, as far as the
function can observe it: either some exception was raised (network error,
JSON decode error, missing `data` field, empty array, first element without
an `id` — all caught by the bare `except`), or a response arrived with a
status code and, when the body parsed and had a `data` array, the list of
its elements' numeric `id` fields (`none` for an element lacking one). -/
inductive LookupOutcome where
  | raised : LookupOutcome
  | response : Nat → Option (List (Option Int)) → LookupOutcome
deriving DecidableEq

/-- `get_card_id`: returns `str(data['data'][0]['id'])` when the status is
200 and the field chain resolves, and `None` in every other case (the
non-200 branch returns `None` explicitly; every raised exception is caught
and also yields `None`). -/
def get_card_id : LookupOutcome → Option String
  | .raised => none
  | .response status_code data =>
    if status_code = 200 then
      match data with
      | some (some id0 :: _) => some (toString id0)
      | _ => none
    else none

/-! ## `parse_deck_list` -/

/-- The three deck sections. -/
inductive DeckSection where
  | main : DeckSection
  | extra : DeckSection
  | side : DeckSection
deriving DecidableEq

/-- The loop state of `parse_deck_list`: the three accumulator lists and
`current_section`. -/
structure ParseState where
  main_deck : List String
  extra_deck : List String
  side_deck : List String
  current_section : DeckSection
deriving DecidableEq

/-- Initial state: empty decks, `current_section = "main"`. -/
def initState : ParseState :=
  ⟨[], [], [], .main⟩

/-- `for _ in range(quantity): <section>.append(card_id)`: append `quantity`
copies of `card_id` to the list selected by `current_section`. -/
def appendCard (st : ParseState) (quantity : Nat) (card_id : String) : ParseState :=
  match st.current_section with
  | .main => { st with main_deck := st.main_deck ++ List.replicate quantity card_id }
  | .extra => { st with extra_deck := st.extra_deck ++ List.replicate quantity card_id }
  | .side => { st with side_deck := st.side_deck ++ List.replicate quantity card_id }

/-- One iteration of the loop body of `parse_deck_list` on a raw line.  The
network call `get_card_id(card_name, format_name)` is abstracted by the
function `lookup : String → Option String` (the identifier the already-fixed
format's lookup yields for a name, `none` when `get_card_id` returns `None`).
`if card_id:` is Python truthiness: `None` and the empty string both skip. -/
def stepLine (lookup : String → Option String) (st : ParseState) (rawLine : String) :
    ParseState :=
  let line := py_strip rawLine
  if line = "" then st
  else if py_lower line = "#main" then { st with current_section := .main }
  else if py_lower line = "#extra" then { st with current_section := .extra }
  else if py_lower line = "#side" then { st with current_section := .side }
  else
    match card_regex_match line with
    | some (qs, rawName) =>
      let quantity := natOfDigits qs
      let card_name := py_strip rawName
      match lookup card_name with
      | some card_id => if card_id = "" then st else appendCard st quantity card_id
      | none => st
    | none => st

/-- `parse_deck_list(deck_list, format_name)` with the resolver abstracted:
fold the loop body over `deck_list.splitlines()`. -/
def parse_deck_list (lookup : String → Option String) (deck_list : String) :
    List String × List String × List String :=
  let st := (splitlines deck_list).foldl (stepLine lookup) initState
  (st.main_deck, st.extra_deck, st.side_deck)

/-! ## `write_ydk_file` -/

/-- Python `"\n".join(xs)`. -/
def join_nl : List String → String
  | [] => ""
  | [x] => x
  | x :: y :: xs => x ++ "\n" ++ join_nl (y :: xs)

/-- `write_ydk_file(output_path, main_deck, extra_deck, side_deck)`: the
full text written to the file.  `if extra_deck:` / `if side_deck:` are the
Python truthiness tests for a nonempty list. -/
def write_ydk_file (main_deck extra_deck side_deck : List String) : String :=
  "#main\n" ++ join_nl main_deck ++ "\n"
    ++ (if extra_deck = [] then "" else "\n#extra\n" ++ join_nl extra_deck ++ "\n")
    ++ (if side_deck = [] then "" else "\n!side\n" ++ join_nl side_deck ++ "\n")

/-! ## Output file name (`main`, lines 108–110) -/

/-- `if not file_name.endswith(".ydk"): file_name += ".ydk"`. -/
def fix_name (file_name : String) : String :=
  if py_endswith file_name ".ydk" then file_name else file_name ++ ".ydk"

/-! ## Reading a generated file back -/

/-- One line of the reader: blank separator lines are skipped, the three
header lines switch the current section, and every other line is one
identifier of the current section. -/
def read_ydk_line (st : ParseState) (line : String) : ParseState :=
  if line = "" then st
  else if line = "#main" then { st with current_section := .main }
  else if line = "#extra" then { st with current_section := .extra }
  else if line = "!side" then { st with current_section := .side }
  else
    match st.current_section with
    | .main => { st with main_deck := st.main_deck ++ [line] }
    | .extra => { st with extra_deck := st.extra_deck ++ [line] }
    | .side => { st with side_deck := st.side_deck ++ [line] }

/-- Modelled from the spec: the repository contains no reader for its
generated output files, so the round-trip property's re-parsing side is
taken from the File Writer contract of the spec (§4.3): sections are
introduced by the `#main`, `#extra` and `!side` header lines, a blank line
separates sections, and every other line is one identifier, in order. -/
def read_ydk (content : String) : List String × List String × List String :=
  let st := (splitlines content).foldl read_ydk_line initState
  (st.main_deck, st.extra_deck, st.side_deck)

/-- Append a batch of entries to the list selected by `current_section`. -/
def secAppend (st : ParseState) (ids : List String) : ParseState :=
  match st.current_section with
  | .main => { st with main_deck := st.main_deck ++ ids }
  | .extra => { st with extra_deck := st.extra_deck ++ ids }
  | .side => { st with side_deck := st.side_deck ++ ids }

/-- An identifier string as produced by resolution: nonempty, all decimal
digits. -/
def isIdStr (s : String) : Prop :=
  s.data ≠ [] ∧ ∀ c ∈ s.data, py_isdigit c = true

instance (s : String) : Decidable (isIdStr s) := by
  unfold isIdStr; infer_instance

/-! ## Auxiliary constructions used only in statements and proofs -/

/-- The decimal digit character of `d < 10`. -/
def digitChar : Nat → Char
  | 0 => '0' | 1 => '1' | 2 => '2' | 3 => '3' | 4 => '4'
  | 5 => '5' | 6 => '6' | 7 => '7' | 8 => '8' | _ => '9'

/-- Decimal digit characters of `n`, most significant first; `fuel`-recursive
so that it evaluates by kernel reduction (`fuel ≥ n` suffices). -/
def natDigitsAux : Nat → Nat → List Char
  | 0, n => [digitChar (n % 10)]
  | fuel + 1, n =>
    if n < 10 then [digitChar n]
    else natDigitsAux fuel (n / 10) ++ [digitChar (n % 10)]

/-- The usual decimal rendering of `n` as a string. -/
def natReprS (n : Nat) : String :=
  String.mk (natDigitsAux n n)

/-- The lines a joined-and-terminated section body contributes: a single
empty line when the section list is empty (`"".join` plus the trailing
newline), the list itself otherwise. -/
def padLines (xs : List String) : List String :=
  if xs = [] then [""] else xs

/-- The line structure of the text produced by `write_ydk_file`. -/
def ydkLines (main_deck extra_deck side_deck : List String) : List String :=
  ["#main"] ++ padLines main_deck
    ++ (if extra_deck = [] then [] else ["", "#extra"] ++ padLines extra_deck)
    ++ (if side_deck = [] then [] else ["", "!side"] ++ padLines side_deck)
    ++ [""]

/-- The deterministic resolver stub of the spec's worked example. -/
def exampleStub (n : String) : Option String :=
  if n = "Pot of Greed" then some "55144522"
  else if n = "Monster Reborn" then some "83764719"
  else none

-- Concrete sanity checks of the embedding against the observed behavior of
-- the Python pattern and functions.
example : card_regex_match "55144522" = some ("5514452", "2") := by decide
example : card_regex_match "0 Pot of Greed" = some ("0", "Pot of Greed") := by decide
example : card_regex_match "1x Pot of Greed" = some ("1", "Pot of Greed") := by decide
example : card_regex_match "x1 Pot" = some ("1", "Pot") := by decide
example : card_regex_match "x12" = some ("1", "2") := by decide
example : card_regex_match "1x" = some ("1", "x") := by decide
example : card_regex_match "1" = none := by decide
example : card_regex_match "DONE" = none := by decide
example : card_regex_match "!side" = none := by decide
example : card_regex_match "12  Foo " = some ("12", "Foo ") := by decide
example : card_regex_match "X3Dark Magician" = some ("3", "Dark Magician") := by decide
example : card_regex_match "00x Foo" = some ("00", "Foo") := by decide
example : py_strip "  a b \t" = "a b" := by decide
example : splitlines "a\nb\n" = ["a", "b", ""] := by decide
example : write_ydk_file ["1"] [] [] = "#main\n1\n" := by decide
example : write_ydk_file [] [] ["10"] = "#main\n\n\n!side\n10\n" := by decide
example :
    parse_deck_list (fun n => some n) (write_ydk_file [] [] ["10"]) = (["0"], [], []) := by
  decide

/-! ## Basic facts about digit characters -/

lemma toNat_bounds_of_isdigit {c : Char} (h : py_isdigit c = true) :
    48 ≤ c.toNat ∧ c.toNat ≤ 57 := by
  simpa [py_isdigit, Bool.and_eq_true, decide_eq_true_eq] using h

lemma isspace_eq_false_of_isdigit {c : Char} (h : py_isdigit c = true) :
    py_isspace c = false := by
  obtain ⟨h1, h2⟩ := toNat_bounds_of_isdigit h
  by_contra hb
  rw [Bool.not_eq_false] at hb
  simp only [py_isspace, Bool.or_eq_true, beq_iff_eq, or_assoc] at hb
  rcases hb with h' | h' | h' | h' | h' | h' <;> subst h' <;> exact absurd h1 (by decide)

lemma isXchar_eq_false_of_isdigit {c : Char} (h : py_isdigit c = true) :
    isXchar c = false := by
  obtain ⟨h1, h2⟩ := toNat_bounds_of_isdigit h
  by_contra hb
  rw [Bool.not_eq_false] at hb
  simp only [isXchar, Bool.or_eq_true, beq_iff_eq] at hb
  rcases hb with h' | h' <;> subst h' <;> exact absurd h2 (by decide)

lemma ne_newline_of_isdigit {c : Char} (h : py_isdigit c = true) : c ≠ '\n' := by
  obtain ⟨h1, _⟩ := toNat_bounds_of_isdigit h
  intro h'
  subst h'
  exact absurd h1 (by decide)

lemma toLower_eq_self_of_isdigit {c : Char} (h : py_isdigit c = true) :
    Char.toLower c = c := by
  obtain ⟨_, h2⟩ := toNat_bounds_of_isdigit h
  have hcond : ¬ (c.toNat ≥ 65 ∧ c.toNat ≤ 90) := by omega
  show (if c.toNat ≥ 65 ∧ c.toNat ≤ 90 then Char.ofNat (c.toNat + 32) else c) = c
  rw [if_neg hcond]

lemma py_isdigit_digitChar {d : Nat} (h : d < 10) : py_isdigit (digitChar d) = true := by
  interval_cases d <;> decide

lemma digitVal_digitChar {d : Nat} (h : d < 10) :
    (digitChar d).toNat - '0'.toNat = d := by
  interval_cases d <;> decide

/-! ## Correctness of the decimal rendering `natDigitsAux` -/

lemma natDigitsAux_ne_nil (fuel n : Nat) : natDigitsAux fuel n ≠ [] := by
  cases fuel with
  | zero => simp [natDigitsAux]
  | succ f => by_cases h : n < 10 <;> simp [natDigitsAux, h]

lemma all_digit_natDigitsAux :
    ∀ fuel n c, c ∈ natDigitsAux fuel n → py_isdigit c = true := by
  intro fuel
  induction fuel with
  | zero =>
    intro n c hc
    simp only [natDigitsAux, List.mem_singleton] at hc
    subst hc
    exact py_isdigit_digitChar (Nat.mod_lt _ (by omega))
  | succ f ih =>
    intro n c hc
    by_cases h : n < 10
    · simp only [natDigitsAux, if_pos h, List.mem_singleton] at hc
      subst hc
      exact py_isdigit_digitChar h
    · simp only [natDigitsAux, if_neg h, List.mem_append, List.mem_singleton] at hc
      rcases hc with hc | hc
      · exact ih _ _ hc
      · subst hc
        exact py_isdigit_digitChar (Nat.mod_lt _ (by omega))

lemma foldl_natDigitsAux :
    ∀ fuel n, n ≤ fuel →
      List.foldl (fun a c => a * 10 + (c.toNat - '0'.toNat)) 0 (natDigitsAux fuel n) = n := by
  intro fuel
  induction fuel with
  | zero =>
    intro n hn
    have hz : n = 0 := by omega
    subst hz
    decide
  | succ f ih =>
    intro n hn
    by_cases h : n < 10
    · simp only [natDigitsAux, if_pos h, List.foldl_cons, List.foldl_nil]
      have hv := digitVal_digitChar h
      omega
    · have hdivle : n / 10 ≤ f := by
        have := Nat.div_lt_self (show 0 < n by omega) (show 1 < 10 by omega)
        omega
      simp only [natDigitsAux, if_neg h]
      rw [List.foldl_append, ih _ hdivle]
      have hv := digitVal_digitChar (Nat.mod_lt n (show 0 < 10 by omega))
      simp only [List.foldl_cons, List.foldl_nil]
      omega

lemma natOfDigits_natReprS (n : Nat) : natOfDigits (natReprS n) = n :=
  foldl_natDigitsAux n n le_rfl

lemma natReprS_data (n : Nat) : (natReprS n).data = natDigitsAux n n := rfl

/-! ## The candidate enumerations of the regex model -/

lemma firstSome_head_some {f : α → Option β} {a : α} {l : List α} {b : β}
    (h : f a = some b) : firstSome f (a :: l) = some b := by
  simp [firstSome, h]

lemma firstSome_head_none {f : α → Option β} {a : α} {l : List α}
    (h : f a = none) : firstSome f (a :: l) = firstSome f l := by
  simp [firstSome, h]

lemma takeWhile_all {p : Char → Bool} :
    ∀ l : List Char, (∀ c ∈ l, p c = true) → l.takeWhile p = l := by
  intro l
  induction l with
  | nil => intro _; rfl
  | cons a t ih =>
    intro hall
    rw [List.takeWhile_cons, if_pos (hall a (by simp)),
      ih (fun c hc => hall c (by simp [hc]))]

lemma takeWhile_append_cons_false {p : Char → Bool} (b : Char) (hb : p b = false) :
    ∀ l r : List Char, (∀ c ∈ l, p c = true) → (l ++ b :: r).takeWhile p = l := by
  intro l
  induction l with
  | nil =>
    intro r _
    simp [List.takeWhile_cons, hb]
  | cons a t ih =>
    intro r hall
    rw [List.cons_append, List.takeWhile_cons, if_pos (hall a (by simp)),
      ih r (fun c hc => hall c (by simp [hc]))]

lemma prefixLen_cons_false {p : Char → Bool} {c : Char} (h : p c = false) (cs : List Char) :
    prefixLen p (c :: cs) = 0 := by
  unfold prefixLen
  rw [List.takeWhile_cons, if_neg (by simp [h])]
  rfl

lemma starSplits_cons_false {p : Char → Bool} {c : Char} (h : p c = false) (cs : List Char) :
    starSplits p (c :: cs) = [([], c :: cs)] := by
  unfold starSplits
  rw [prefixLen_cons_false h]
  rfl

lemma range_reverse_succ (k : Nat) :
    (List.range (k + 1)).reverse = k :: (List.range k).reverse := by
  rw [List.range_succ, List.reverse_append]
  rfl

lemma plusDigitSplits_eq_cons {cs : List Char} {k : Nat}
    (h : prefixLen py_isdigit cs = k + 1) :
    plusDigitSplits cs
      = (cs.take (k + 1), cs.drop (k + 1))
        :: (List.range k).reverse.map (fun i => (cs.take (i + 1), cs.drop (i + 1))) := by
  unfold plusDigitSplits
  rw [h, range_reverse_succ, List.map_cons]

/-! ## Greedy-match lemmas for `card_regex` -/

lemma starSplits_eq_singleton {p : Char → Bool} {cs : List Char}
    (h : prefixLen p cs = 0) : starSplits p cs = [([], cs)] := by
  unfold starSplits
  rw [h]
  rfl

lemma matchWsRest_digit_singleton {c : Char} (hc : py_isdigit c = true) :
    matchWsRest [c] = some [c] := by
  unfold matchWsRest
  rw [starSplits_eq_singleton (prefixLen_cons_false (isspace_eq_false_of_isdigit hc) _)]
  refine firstSome_head_some ?_
  dsimp only
  rw [if_pos]
  refine ⟨by simp, ?_⟩
  simp only [List.mem_singleton]
  intro h
  exact (ne_newline_of_isdigit hc) h.symm

lemma matchB1_digits_space_A (d : Char) (ds : List Char)
    (hd : py_isdigit d = true) (hds : ∀ c ∈ ds, py_isdigit c = true) :
    matchB1 (d :: ds ++ [' ', 'A']) = some (d :: ds, ['A']) := by
  have hall : ∀ c ∈ d :: ds, py_isdigit c = true := by
    intro c hc
    rcases List.mem_cons.mp hc with h | h
    · exact h ▸ hd
    · exact hds c h
  have hpl0 : prefixLen py_isspace (d :: ds ++ [' ', 'A']) = 0 := by
    rw [List.cons_append]
    exact prefixLen_cons_false (isspace_eq_false_of_isdigit hd) _
  have hpl : prefixLen py_isdigit (d :: ds ++ [' ', 'A']) = ds.length + 1 := by
    unfold prefixLen
    rw [@takeWhile_append_cons_false py_isdigit ' ' (by decide) (d :: ds) ['A'] hall]
    simp
  have htake : (d :: ds ++ [' ', 'A']).take (ds.length + 1) = d :: ds := by
    rw [show ds.length + 1 = (d :: ds).length from by simp, List.take_left]
  have hdrop : (d :: ds ++ [' ', 'A']).drop (ds.length + 1) = [' ', 'A'] := by
    rw [show ds.length + 1 = (d :: ds).length from by simp, List.drop_left]
  unfold matchB1
  rw [starSplits_eq_singleton hpl0]
  refine firstSome_head_some ?_
  dsimp only
  rw [plusDigitSplits_eq_cons hpl, htake, hdrop]
  refine firstSome_head_some ?_
  dsimp only
  rw [show optXAlternatives [' ', 'A'] = [[' ', 'A']] from by decide]
  refine firstSome_head_some ?_
  dsimp only
  rw [show matchWsRest [' ', 'A'] = some ['A'] from by decide]
  rfl

lemma matchB1_all_digits (d : Char) (ds : List Char) (c : Char)
    (hd : py_isdigit d = true) (hds : ∀ x ∈ ds, py_isdigit x = true)
    (hc : py_isdigit c = true) :
    matchB1 (d :: ds ++ [c]) = some (d :: ds, [c]) := by
  have hall : ∀ x ∈ d :: ds ++ [c], py_isdigit x = true := by
    intro x hx
    rcases List.mem_append.mp hx with h | h
    · rcases List.mem_cons.mp h with h' | h'
      · exact h' ▸ hd
      · exact hds x h'
    · rw [List.mem_singleton] at h
      exact h ▸ hc
  have hpl0 : prefixLen py_isspace (d :: ds ++ [c]) = 0 := by
    rw [List.cons_append]
    exact prefixLen_cons_false (isspace_eq_false_of_isdigit hd) _
  have hpl : prefixLen py_isdigit (d :: ds ++ [c]) = (ds.length + 1) + 1 := by
    unfold prefixLen
    rw [takeWhile_all _ hall]
    simp
  have htake2 : (d :: ds ++ [c]).take (ds.length + 1 + 1) = d :: ds ++ [c] := by
    rw [show ds.length + 1 + 1 = (d :: ds ++ [c]).length from by simp, List.take_length]
  have hdrop2 : (d :: ds ++ [c]).drop (ds.length + 1 + 1) = [] := by
    rw [show ds.length + 1 + 1 = (d :: ds ++ [c]).length from by simp, List.drop_length]
  have htake1 : (d :: ds ++ [c]).take (ds.length + 1) = d :: ds := by
    rw [show ds.length + 1 = (d :: ds).length from by simp, List.take_left]
  have hdrop1 : (d :: ds ++ [c]).drop (ds.length + 1) = [c] := by
    rw [show ds.length + 1 = (d :: ds).length from by simp, List.drop_left]
  unfold matchB1
  rw [starSplits_eq_singleton hpl0]
  refine firstSome_head_some ?_
  dsimp only
  rw [plusDigitSplits_eq_cons hpl, htake2, hdrop2]
  refine (firstSome_head_none ?_).trans ?_
  · rfl
  · rw [range_reverse_succ, List.map_cons]
    refine firstSome_head_some ?_
    dsimp only
    rw [htake1, hdrop1,
      show optXAlternatives [c] = [[c]] from by
        show (if isXchar c = true then [([] : List Char), [c]] else [[c]]) = [[c]]
        rw [if_neg (by simp [isXchar_eq_false_of_isdigit hc])]]
    refine firstSome_head_some ?_
    dsimp only
    rw [matchWsRest_digit_singleton hc]
    rfl

/-! ## Strings of digits through `strip`, `lower` and the pattern -/

lemma dropWhile_eq_self_of_all {p : Char → Bool} {cs : List Char}
    (h : ∀ c ∈ cs, p c = false) : cs.dropWhile p = cs := by
  cases cs with
  | nil => rfl
  | cons a t => rw [List.dropWhile_cons, if_neg (by simp [h a (by simp)])]

lemma stripChars_of_all_nonspace {cs : List Char}
    (h : ∀ c ∈ cs, py_isspace c = false) : stripChars cs = cs := by
  unfold stripChars
  rw [dropWhile_eq_self_of_all h,
    dropWhile_eq_self_of_all (fun c hc => h c (List.mem_reverse.mp hc)),
    List.reverse_reverse]

lemma py_strip_of_digits {L : List Char} (h : ∀ c ∈ L, py_isdigit c = true) :
    py_strip (String.mk L) = String.mk L := by
  show String.mk (stripChars L) = String.mk L
  rw [stripChars_of_all_nonspace (fun c hc => isspace_eq_false_of_isdigit (h c hc))]

lemma map_toLower_eq_self : ∀ {L : List Char}, (∀ c ∈ L, py_isdigit c = true) →
    L.map Char.toLower = L := by
  intro L
  induction L with
  | nil => intro _; rfl
  | cons a t ih =>
    intro h
    rw [List.map_cons, toLower_eq_self_of_isdigit (h a (by simp)),
      ih (fun c hc => h c (by simp [hc]))]

lemma py_lower_of_digits {L : List Char} (h : ∀ c ∈ L, py_isdigit c = true) :
    py_lower (String.mk L) = String.mk L := by
  show String.mk (L.map Char.toLower) = String.mk L
  rw [map_toLower_eq_self h]

lemma mk_digits_ne_empty {L : List Char} (hne : L ≠ []) : String.mk L ≠ "" := by
  intro e
  exact hne (congrArg String.data e)

lemma digits_ne_main {L : List Char} (h : ∀ c ∈ L, py_isdigit c = true) :
    String.mk L ≠ "#main" := by
  intro e
  have hL : L = "#main".data := congrArg String.data e
  exact absurd (h '#' (by rw [hL]; decide)) (by decide)

lemma digits_ne_extra {L : List Char} (h : ∀ c ∈ L, py_isdigit c = true) :
    String.mk L ≠ "#extra" := by
  intro e
  have hL : L = "#extra".data := congrArg String.data e
  exact absurd (h '#' (by rw [hL]; decide)) (by decide)

lemma digits_ne_side {L : List Char} (h : ∀ c ∈ L, py_isdigit c = true) :
    String.mk L ≠ "#side" := by
  intro e
  have hL : L = "#side".data := congrArg String.data e
  exact absurd (h '#' (by rw [hL]; decide)) (by decide)

lemma digits_ne_bang_side {L : List Char} (h : ∀ c ∈ L, py_isdigit c = true) :
    String.mk L ≠ "!side" := by
  intro e
  have hL : L = "!side".data := congrArg String.data e
  exact absurd (h '!' (by rw [hL]; decide)) (by decide)

lemma isIdStr_facts {x : String} (h : isIdStr x) :
    x ≠ "" ∧ x ≠ "#main" ∧ x ≠ "#extra" ∧ x ≠ "#side" ∧ x ≠ "!side" ∧ '\n' ∉ x.data := by
  obtain ⟨hne, hdig⟩ := h
  have hx : x = String.mk x.data := rfl
  refine ⟨?_, ?_, ?_, ?_, ?_, ?_⟩
  · rw [hx]; exact mk_digits_ne_empty hne
  · rw [hx]; exact digits_ne_main hdig
  · rw [hx]; exact digits_ne_extra hdig
  · rw [hx]; exact digits_ne_side hdig
  · rw [hx]; exact digits_ne_bang_side hdig
  · intro hm
    exact absurd (hdig '\n' hm) (by decide)

lemma card_regex_match_digits_space_A {d : Char} {ds : List Char}
    (hd : py_isdigit d = true) (hds : ∀ c ∈ ds, py_isdigit c = true) :
    card_regex_match (String.mk (d :: ds ++ [' ', 'A']))
      = some (String.mk (d :: ds), "A") := by
  unfold card_regex_match
  rw [show (String.mk (d :: ds ++ [' ', 'A'])).data = d :: ds ++ [' ', 'A'] from rfl]
  rw [matchB1_digits_space_A d ds hd hds]

lemma card_regex_match_all_digits {d : Char} {ds : List Char} {c : Char}
    (hd : py_isdigit d = true) (hds : ∀ x ∈ ds, py_isdigit x = true)
    (hc : py_isdigit c = true) :
    card_regex_match (String.mk (d :: ds ++ [c]))
      = some (String.mk (d :: ds), String.mk [c]) := by
  unfold card_regex_match
  rw [show (String.mk (d :: ds ++ [c])).data = d :: ds ++ [c] from rfl]
  rw [matchB1_all_digits d ds c hd hds hc]

/-! ## The card-line path of the parser loop -/

lemma stepLine_card_eq {lookup : String → Option String} {st : ParseState}
    {rawLine qs nm : String}
    (h0 : py_strip rawLine ≠ "")
    (h1 : py_lower (py_strip rawLine) ≠ "#main")
    (h2 : py_lower (py_strip rawLine) ≠ "#extra")
    (h3 : py_lower (py_strip rawLine) ≠ "#side")
    (h4 : card_regex_match (py_strip rawLine) = some (qs, nm)) :
    stepLine lookup st rawLine
      = match lookup (py_strip nm) with
        | some card_id =>
          if card_id = "" then st else appendCard st (natOfDigits qs) card_id
        | none => st := by
  simp only [stepLine]
  rw [if_neg h0, if_neg h1, if_neg h2, if_neg h3, h4]

lemma stepLine_skip {lookup : String → Option String} {st : ParseState}
    {rawLine qs nm : String}
    (h0 : py_strip rawLine ≠ "")
    (h1 : py_lower (py_strip rawLine) ≠ "#main")
    (h2 : py_lower (py_strip rawLine) ≠ "#extra")
    (h3 : py_lower (py_strip rawLine) ≠ "#side")
    (h4 : card_regex_match (py_strip rawLine) = some (qs, nm))
    (h5 : lookup (py_strip nm) = none) :
    stepLine lookup st rawLine = st := by
  rw [stepLine_card_eq h0 h1 h2 h3 h4, h5]

/-! ## Line structure of the written file -/

lemma mk_data_eq (s : String) : String.mk s.data = s := rfl

lemma map_mk_data (xs : List String) : (xs.map String.data).map String.mk = xs := by
  rw [List.map_map]
  have hcomp : (String.mk ∘ String.data) = id := funext fun s => rfl
  rw [hcomp, List.map_id]

lemma splitNl_newline_cons (cs : List Char) : splitNl ('\n' :: cs) = [] :: splitNl cs := by
  simp [splitNl]

lemma splitNl_cons_ne {a : Char} (ha : a ≠ '\n') (cs : List Char) :
    splitNl (a :: cs)
      = match splitNl cs with
        | l :: ls => (a :: l) :: ls
        | [] => [[a]] := by
  simp [splitNl, ha]

lemma splitNl_append_newline : ∀ l : List Char, '\n' ∉ l → ∀ rest,
    splitNl (l ++ '\n' :: rest) = l :: splitNl rest := by
  intro l
  induction l with
  | nil =>
    intro _ rest
    simp [splitNl]
  | cons a t ih =>
    intro h rest
    have ha : a ≠ '\n' := fun e => h (by simp [e])
    have ht : '\n' ∉ t := fun m => h (by simp [m])
    rw [List.cons_append, splitNl_cons_ne ha, ih ht rest]

lemma join_nl_data_cons_cons (x y : String) (t : List String) :
    (join_nl (x :: y :: t)).data = x.data ++ '\n' :: (join_nl (y :: t)).data := by
  show (x ++ "\n" ++ join_nl (y :: t)).data = _
  rw [String.data_append, String.data_append]
  simp

lemma splitNl_join_block : ∀ xs : List String, (∀ x ∈ xs, '\n' ∉ x.data) → ∀ rest,
    splitNl ((join_nl xs).data ++ '\n' :: rest)
      = (padLines xs).map String.data ++ splitNl rest := by
  intro xs
  induction xs with
  | nil =>
    intro _ rest
    show splitNl (("" : String).data ++ '\n' :: rest) = _
    rw [show ("" : String).data = [] from rfl, List.nil_append, splitNl_newline_cons]
    simp [padLines]
  | cons x t ih =>
    cases t with
    | nil =>
      intro h rest
      show splitNl (x.data ++ '\n' :: rest) = _
      rw [splitNl_append_newline x.data (h x (by simp)) rest]
      simp [padLines]
    | cons y t' =>
      intro h rest
      have hx : '\n' ∉ x.data := h x (by simp)
      rw [join_nl_data_cons_cons, List.append_assoc, List.cons_append,
        splitNl_append_newline x.data hx,
        ih (fun z hz => h z (by simp [hz])) rest]
      simp [padLines]

lemma splitNl_hdr_main (rest : List Char) :
    splitNl ('#' :: 'm' :: 'a' :: 'i' :: 'n' :: '\n' :: rest)
      = "#main".data :: splitNl rest :=
  splitNl_append_newline "#main".data (by decide) rest

lemma splitNl_hdr_extra (rest : List Char) :
    splitNl ('#' :: 'e' :: 'x' :: 't' :: 'r' :: 'a' :: '\n' :: rest)
      = "#extra".data :: splitNl rest :=
  splitNl_append_newline "#extra".data (by decide) rest

lemma splitNl_hdr_side (rest : List Char) :
    splitNl ('!' :: 's' :: 'i' :: 'd' :: 'e' :: '\n' :: rest)
      = "!side".data :: splitNl rest :=
  splitNl_append_newline "!side".data (by decide) rest

lemma splitlines_write (m e s : List String)
    (hm : ∀ x ∈ m, '\n' ∉ x.data) (he : ∀ x ∈ e, '\n' ∉ x.data)
    (hs : ∀ x ∈ s, '\n' ∉ x.data) :
    splitlines (write_ydk_file m e s) = ydkLines m e s := by
  have hE : ("" : String).data = [] := rfl
  have hmkE : String.mk [] = "" := rfl
  have hnil : splitNl [] = [[]] := rfl
  unfold splitlines write_ydk_file ydkLines
  by_cases he0 : e = []
  · by_cases hs0 : s = []
    · rw [if_pos he0, if_pos hs0, if_pos he0, if_pos hs0]
      simp only [String.data_append, hE, List.append_nil, List.append_assoc,
        List.cons_append, List.nil_append]
      rw [splitNl_hdr_main, splitNl_join_block m hm [], hnil]
      simp only [List.map_cons, List.map_append, map_mk_data, mk_data_eq, hmkE,
        List.map_nil]
    · rw [if_pos he0, if_neg hs0, if_pos he0, if_neg hs0]
      simp only [String.data_append, hE, List.append_nil, List.append_assoc,
        List.cons_append, List.nil_append]
      rw [splitNl_hdr_main, splitNl_join_block m hm, splitNl_newline_cons,
        splitNl_hdr_side, splitNl_join_block s hs [], hnil]
      simp only [List.map_cons, List.map_append, map_mk_data, mk_data_eq, hmkE,
        List.map_nil]
  · by_cases hs0 : s = []
    · rw [if_neg he0, if_pos hs0, if_neg he0, if_pos hs0]
      simp only [String.data_append, hE, List.append_nil, List.append_assoc,
        List.cons_append, List.nil_append]
      rw [splitNl_hdr_main, splitNl_join_block m hm, splitNl_newline_cons,
        splitNl_hdr_extra, splitNl_join_block e he [], hnil]
      simp only [List.map_cons, List.map_append, map_mk_data, mk_data_eq, hmkE,
        List.map_nil]
    · rw [if_neg he0, if_neg hs0, if_neg he0, if_neg hs0]
      simp only [String.data_append, hE, List.append_nil, List.append_assoc,
        List.cons_append, List.nil_append]
      rw [splitNl_hdr_main, splitNl_join_block m hm, splitNl_newline_cons,
        splitNl_hdr_extra, splitNl_join_block e he, splitNl_newline_cons,
        splitNl_hdr_side, splitNl_join_block s hs [], hnil]
      simp only [List.map_cons, List.map_append, map_mk_data, mk_data_eq, hmkE,
        List.map_nil]

/-! ## Reading the generated file back -/

lemma read_ydk_line_blank (st : ParseState) : read_ydk_line st "" = st := by
  unfold read_ydk_line
  rw [if_pos rfl]

lemma read_ydk_line_hmain (st : ParseState) :
    read_ydk_line st "#main" = { st with current_section := .main } := by
  unfold read_ydk_line
  rw [if_neg (by decide), if_pos rfl]

lemma read_ydk_line_hextra (st : ParseState) :
    read_ydk_line st "#extra" = { st with current_section := .extra } := by
  unfold read_ydk_line
  rw [if_neg (by decide), if_neg (by decide), if_pos rfl]

lemma read_ydk_line_hside (st : ParseState) :
    read_ydk_line st "!side" = { st with current_section := .side } := by
  unfold read_ydk_line
  rw [if_neg (by decide), if_neg (by decide), if_neg (by decide), if_pos rfl]

lemma read_ydk_line_id {st : ParseState} {x : String} (h : isIdStr x) :
    read_ydk_line st x = secAppend st [x] := by
  obtain ⟨h0, h1, h2, _, h4, _⟩ := isIdStr_facts h
  unfold read_ydk_line secAppend
  rw [if_neg h0, if_neg h1, if_neg h2, if_neg h4]

lemma secAppend_nil (st : ParseState) : secAppend st [] = st := by
  obtain ⟨a, b, c, d⟩ := st
  cases d <;> simp [secAppend]

lemma secAppend_append (st : ParseState) (xs ys : List String) :
    secAppend (secAppend st xs) ys = secAppend st (xs ++ ys) := by
  obtain ⟨a, b, c, d⟩ := st
  cases d <;> simp [secAppend]

lemma foldl_read_ids :
    ∀ ids : List String, (∀ x ∈ ids, isIdStr x) → ∀ st : ParseState,
      List.foldl read_ydk_line st ids = secAppend st ids := by
  intro ids
  induction ids with
  | nil =>
    intro _ st
    rw [List.foldl_nil, secAppend_nil]
  | cons a t ih =>
    intro h st
    rw [List.foldl_cons, read_ydk_line_id (h a (by simp)),
      ih (fun x hx => h x (by simp [hx])), secAppend_append]
    rfl

lemma foldl_read_pad {xs : List String} (h : ∀ x ∈ xs, isIdStr x) (st : ParseState) :
    List.foldl read_ydk_line st (padLines xs) = secAppend st xs := by
  by_cases h0 : xs = []
  · subst h0
    rw [show padLines ([] : List String) = [""] from rfl, List.foldl_cons,
      read_ydk_line_blank, List.foldl_nil, secAppend_nil]
  · rw [show padLines xs = xs from by unfold padLines; rw [if_neg h0]]
    exact foldl_read_ids xs h st

lemma read_ydk_write (m e s : List String) (h : ∀ x ∈ m ++ e ++ s, isIdStr x) :
    read_ydk (write_ydk_file m e s) = (m, e, s) := by
  have hm : ∀ x ∈ m, isIdStr x := fun x hx => h x (by simp [hx])
  have he : ∀ x ∈ e, isIdStr x := fun x hx => h x (by simp [hx])
  have hs : ∀ x ∈ s, isIdStr x := fun x hx => h x (by simp [hx])
  have hmnl : ∀ x ∈ m, '\n' ∉ x.data := fun x hx => (isIdStr_facts (hm x hx)).2.2.2.2.2
  have henl : ∀ x ∈ e, '\n' ∉ x.data := fun x hx => (isIdStr_facts (he x hx)).2.2.2.2.2
  have hsnl : ∀ x ∈ s, '\n' ∉ x.data := fun x hx => (isIdStr_facts (hs x hx)).2.2.2.2.2
  unfold read_ydk
  rw [splitlines_write m e s hmnl henl hsnl]
  unfold ydkLines
  simp only [List.cons_append, List.nil_append, List.append_assoc]
  rw [List.foldl_cons, read_ydk_line_hmain]
  rw [show ({ initState with current_section := .main } : ParseState) = initState from rfl]
  rw [List.foldl_append, foldl_read_pad hm]
  rw [show secAppend initState m = (⟨m, [], [], .main⟩ : ParseState) from by
    simp [secAppend, initState]]
  by_cases he0 : e = []
  · rw [if_pos he0]
    rw [List.nil_append]
    by_cases hs0 : s = []
    · rw [if_pos hs0]
      subst he0; subst hs0
      rw [List.nil_append, List.foldl_cons, read_ydk_line_blank, List.foldl_nil]
    · rw [if_neg hs0]
      subst he0
      simp only [List.cons_append, List.nil_append]
      rw [List.foldl_cons, read_ydk_line_blank, List.foldl_cons, read_ydk_line_hside]
      rw [show ({ (⟨m, [], [], .main⟩ : ParseState) with current_section := .side }
            : ParseState) = ⟨m, [], [], .side⟩ from rfl]
      rw [List.foldl_append, foldl_read_pad hs]
      rw [show secAppend (⟨m, [], [], .side⟩ : ParseState) s
            = (⟨m, [], s, .side⟩ : ParseState) from by simp [secAppend]]
      rw [List.foldl_cons, read_ydk_line_blank, List.foldl_nil]
  · rw [if_neg he0]
    simp only [List.cons_append, List.nil_append]
    rw [List.foldl_cons, read_ydk_line_blank, List.foldl_cons, read_ydk_line_hextra]
    rw [show ({ (⟨m, [], [], .main⟩ : ParseState) with current_section := .extra }
          : ParseState) = ⟨m, [], [], .extra⟩ from rfl]
    rw [List.foldl_append, foldl_read_pad he]
    rw [show secAppend (⟨m, [], [], .extra⟩ : ParseState) e
          = (⟨m, e, [], .extra⟩ : ParseState) from by simp [secAppend]]
    by_cases hs0 : s = []
    · rw [if_pos hs0]
      subst hs0
      rw [List.nil_append, List.foldl_cons, read_ydk_line_blank, List.foldl_nil]
    · rw [if_neg hs0]
      simp only [List.cons_append, List.nil_append]
      rw [List.foldl_cons, read_ydk_line_blank, List.foldl_cons, read_ydk_line_hside]
      rw [show ({ (⟨m, e, [], .extra⟩ : ParseState) with current_section := .side }
            : ParseState) = ⟨m, e, [], .side⟩ from rfl]
      rw [List.foldl_append, foldl_read_pad hs]
      rw [show secAppend (⟨m, e, [], .side⟩ : ParseState) s
            = (⟨m, e, s, .side⟩ : ParseState) from by simp [secAppend]]
      rw [List.foldl_cons, read_ydk_line_blank, List.foldl_nil]

/-! ## The output file name -/

lemma suffix_eq_of_length {α : Type} [DecidableEq α] {a b l : List α}
    (ha : a <:+ l) (hb : b <:+ l) (hlen : a.length = b.length) : a = b := by
  have ha' : a.reverse <+: l.reverse := List.reverse_prefix.mpr ha
  have hb' : b.reverse <+: l.reverse := List.reverse_prefix.mpr hb
  rcases List.prefix_or_prefix_of_prefix ha' hb' with h | h
  · exact List.reverse_injective (h.eq_of_length (by simp [hlen]))
  · exact (List.reverse_injective (h.eq_of_length (by simp [hlen]))).symm

lemma py_endswith_append_ne {s t : String} (hlen : t.data.length = 4)
    (hne : t ≠ ".ydk") : py_endswith (s ++ t) ".ydk" = false := by
  unfold py_endswith
  apply decide_eq_false
  intro hsuf
  have ht : t.data <:+ (s ++ t).data := by
    rw [String.data_append]
    exact List.suffix_append s.data t.data
  have hdata : (".ydk" : String).data = t.data :=
    suffix_eq_of_length hsuf ht (by rw [hlen]; rfl)
  exact hne (String.ext hdata.symm)

/-! ## Membership in the written lines -/

lemma mem_padLines {x : String} {xs : List String} (h : x ∈ padLines xs) :
    x ∈ xs ∨ x = "" := by
  unfold padLines at h
  by_cases h0 : xs = []
  · rw [if_pos h0] at h
    right
    simpa using h
  · rw [if_neg h0] at h
    left
    exact h

lemma mem_ydkLines {y : String} {m e s : List String} (hy : y ∈ ydkLines m e s) :
    y = "#main" ∨ y = "" ∨ y ∈ m ∨ y ∈ e ∨ y ∈ s
      ∨ (e ≠ [] ∧ y = "#extra") ∨ (s ≠ [] ∧ y = "!side") := by
  unfold ydkLines at hy
  simp only [List.append_assoc, List.cons_append, List.nil_append] at hy
  by_cases he0 : e = [] <;> by_cases hs0 : s = []
  · rw [if_pos he0, if_pos hs0] at hy
    rw [List.nil_append, List.nil_append] at hy
    rcases List.mem_cons.mp hy with h | hy2
    · tauto
    rcases List.mem_append.mp hy2 with h | h
    · rcases mem_padLines h with h | h <;> tauto
    · rw [List.mem_singleton] at h
      tauto
  · rw [if_pos he0, if_neg hs0] at hy
    rw [List.nil_append] at hy
    rcases List.mem_cons.mp hy with h | hy2
    · tauto
    rcases List.mem_append.mp hy2 with h | hy3
    · rcases mem_padLines h with h | h <;> tauto
    rcases List.mem_cons.mp hy3 with h | hy4
    · tauto
    rcases List.mem_cons.mp hy4 with h | hy5
    · tauto
    rcases List.mem_append.mp hy5 with h | h
    · rcases mem_padLines h with h | h <;> tauto
    · rw [List.mem_singleton] at h
      tauto
  · rw [if_neg he0, if_pos hs0] at hy
    rw [List.nil_append] at hy
    rcases List.mem_cons.mp hy with h | hy2
    · tauto
    rcases List.mem_append.mp hy2 with h | hy3
    · rcases mem_padLines h with h | h <;> tauto
    rcases List.mem_cons.mp hy3 with h | hy4
    · tauto
    rcases List.mem_cons.mp hy4 with h | hy5
    · tauto
    rcases List.mem_append.mp hy5 with h | h
    · rcases mem_padLines h with h | h <;> tauto
    · rw [List.mem_singleton] at h
      tauto
  · rw [if_neg he0, if_neg hs0] at hy
    rcases List.mem_cons.mp hy with h | hy2
    · tauto
    rcases List.mem_append.mp hy2 with h | hy3
    · rcases mem_padLines h with h | h <;> tauto
    rcases List.mem_cons.mp hy3 with h | hy4
    · tauto
    rcases List.mem_cons.mp hy4 with h | hy5
    · tauto
    rcases List.mem_append.mp hy5 with h | hy6
    · rcases mem_padLines h with h | h <;> tauto
    rcases List.mem_cons.mp hy6 with h | hy7
    · tauto
    rcases List.mem_cons.mp hy7 with h | hy8
    · tauto
    rcases List.mem_append.mp hy8 with h | h
    · rcases mem_padLines h with h | h <;> tauto
    · rw [List.mem_singleton] at h
      tauto

/-! ## Remaining helper lemmas -/

lemma card_regex_match_natReprS (n : Nat) :
    card_regex_match (natReprS n ++ " A") = some (natReprS n, "A") := by
  have hda : (natReprS n ++ " A").data = natDigitsAux n n ++ [' ', 'A'] := by
    rw [String.data_append]
    rfl
  obtain ⟨d, ds, hds⟩ : ∃ d ds, natDigitsAux n n = d :: ds := by
    cases hK : natDigitsAux n n with
    | nil => exact absurd hK (natDigitsAux_ne_nil n n)
    | cons d ds => exact ⟨d, ds, rfl⟩
  have hd : py_isdigit d = true := all_digit_natDigitsAux n n d (by rw [hds]; simp)
  have hdsall : ∀ c ∈ ds, py_isdigit c = true := fun c hc =>
    all_digit_natDigitsAux n n c (by rw [hds]; simp [hc])
  unfold card_regex_match
  rw [hda, hds, matchB1_digits_space_A d ds hd hdsall, ← hds]
  rfl

lemma get_card_id_eq_none {o : LookupOutcome}
    (h : ∀ i rest, o ≠ LookupOutcome.response 200 (some (some i :: rest))) :
    get_card_id o = none := by
  cases o with
  | raised => rfl
  | response status data =>
    by_cases hst : status = 200
    · subst hst
      cases data with
      | none => rfl
      | some l =>
        cases l with
        | nil => rfl
        | cons h0 t =>
          cases h0 with
          | none => rfl
          | some i => exact absurd rfl (h i t)
    · simp [get_card_id, hst]

/-! ## Claim theorems -/

/-- C2, counterexample: the line `"0 Pot of Greed"` is stripped to itself,
is accepted by `card_regex` as a card line, and its parsed quantity is `0`,
which is not strictly positive. -/
theorem spec_c2_counterexample :
    py_strip "0 Pot of Greed" = "0 Pot of Greed"
    ∧ card_regex_match "0 Pot of Greed" = some ("0", "Pot of Greed")
    ∧ ¬ 0 < natOfDigits "0" := by
  decide

/-- C2 (amended): for every accepted card line the parsed quantity is a
nonnegative integer (zero is accepted, e.g. for the digit group `"0"`), and
no upper bound is imposed: for every `n` the line `natReprS n ++ " A"` is
accepted with quantity group `natReprS n`, whose parsed value is exactly
`n`. -/
theorem spec_c2 (n : Nat) :
    card_regex_match (natReprS n ++ " A") = some (natReprS n, "A")
    ∧ natOfDigits (natReprS n) = n :=
  ⟨card_regex_match_natReprS n, natOfDigits_natReprS n⟩

/-- C3: `get_card_id` returns the not-found signal (`None`) on every outcome
that is not a 200 response whose `data` array starts with an element
carrying a numeric `id`; and when the resolver returns `None` for a card
line's name, the parser loop leaves the state unchanged on that line, so a
deck list containing the line parses exactly like the deck list without it
— no identifier is appended anywhere and all other lines are processed as
they would be otherwise. -/
theorem spec_c3 :
    (∀ o : LookupOutcome,
      (∀ i rest, o ≠ LookupOutcome.response 200 (some (some i :: rest))) →
      get_card_id o = none)
    ∧ (∀ (lookup : String → Option String) (st : ParseState)
          (pre post : List String) (rawLine qs nm : String),
        py_strip rawLine ≠ "" →
        py_lower (py_strip rawLine) ≠ "#main" →
        py_lower (py_strip rawLine) ≠ "#extra" →
        py_lower (py_strip rawLine) ≠ "#side" →
        card_regex_match (py_strip rawLine) = some (qs, nm) →
        lookup (py_strip nm) = none →
        List.foldl (stepLine lookup) st (pre ++ rawLine :: post)
          = List.foldl (stepLine lookup) st (pre ++ post)) := by
  constructor
  · intro o h
    exact get_card_id_eq_none h
  · intro lookup st pre post rawLine qs nm h0 h1 h2 h3 h4 h5
    rw [List.foldl_append, List.foldl_append, List.foldl_cons,
      stepLine_skip h0 h1 h2 h3 h4 h5]

/-- C3, witness: a 404 response resolves to `None`, and a one-line deck list
whose single card line fails to resolve parses to the same state as the
empty deck list. -/
theorem spec_c3_witness :
    get_card_id (LookupOutcome.response 404 none) = none
    ∧ List.foldl (stepLine (fun _ => none)) initState ([] ++ "1x Foo" :: [])
        = List.foldl (stepLine (fun _ => none)) initState ([] ++ []) :=
  ⟨spec_c3.1 _ (by intro i rest; simp),
   spec_c3.2 (fun _ => none) initState [] [] "1x Foo" "1" "Foo"
     (by decide) (by decide) (by decide) (by decide) (by decide) rfl⟩

/-- C4: on a nonblank, non-header line accepted by `card_regex` whose
(stripped) name the resolver maps to a nonempty identifier, the parser step
appends exactly `quantity` copies of that identifier to the end of the
sequence of the currently active section, leaves the other two sequences
and the active section unchanged — so identifiers accumulate in input
order. -/
theorem spec_c4 (lookup : String → Option String) (st : ParseState)
    (rawLine qs nm card_id : String)
    (h0 : py_strip rawLine ≠ "")
    (h1 : py_lower (py_strip rawLine) ≠ "#main")
    (h2 : py_lower (py_strip rawLine) ≠ "#extra")
    (h3 : py_lower (py_strip rawLine) ≠ "#side")
    (h4 : card_regex_match (py_strip rawLine) = some (qs, nm))
    (h5 : lookup (py_strip nm) = some card_id)
    (h6 : card_id ≠ "") :
    stepLine lookup st rawLine = appendCard st (natOfDigits qs) card_id
    ∧ (stepLine lookup st rawLine).current_section = st.current_section
    ∧ (st.current_section = .main →
        (stepLine lookup st rawLine).main_deck
            = st.main_deck ++ List.replicate (natOfDigits qs) card_id
        ∧ (stepLine lookup st rawLine).extra_deck = st.extra_deck
        ∧ (stepLine lookup st rawLine).side_deck = st.side_deck)
    ∧ (st.current_section = .extra →
        (stepLine lookup st rawLine).extra_deck
            = st.extra_deck ++ List.replicate (natOfDigits qs) card_id
        ∧ (stepLine lookup st rawLine).main_deck = st.main_deck
        ∧ (stepLine lookup st rawLine).side_deck = st.side_deck)
    ∧ (st.current_section = .side →
        (stepLine lookup st rawLine).side_deck
            = st.side_deck ++ List.replicate (natOfDigits qs) card_id
        ∧ (stepLine lookup st rawLine).main_deck = st.main_deck
        ∧ (stepLine lookup st rawLine).extra_deck = st.extra_deck) := by
  have hstep : stepLine lookup st rawLine = appendCard st (natOfDigits qs) card_id := by
    rw [stepLine_card_eq h0 h1 h2 h3 h4, h5]
    show (if card_id = "" then st else appendCard st (natOfDigits qs) card_id)
      = appendCard st (natOfDigits qs) card_id
    rw [if_neg h6]
  obtain ⟨a, b, c, d⟩ := st
  refine ⟨hstep, ?_, ?_, ?_, ?_⟩
  · rw [hstep]
    cases d <;> rfl
  · intro hd
    replace hd : d = DeckSection.main := hd
    subst hd
    rw [hstep]
    exact ⟨rfl, rfl, rfl⟩
  · intro hd
    replace hd : d = DeckSection.extra := hd
    subst hd
    rw [hstep]
    exact ⟨rfl, rfl, rfl⟩
  · intro hd
    replace hd : d = DeckSection.side := hd
    subst hd
    rw [hstep]
    exact ⟨rfl, rfl, rfl⟩

/-- C4, witness: parsing the card line `"2x Foo"` with a stub resolver that
returns identifier `"7"` appends two copies of `"7"`. -/
theorem spec_c4_witness :
    stepLine (fun _ => some "7") initState "2x Foo"
      = appendCard initState (natOfDigits "2") "7" :=
  (spec_c4 (fun _ => some "7") initState "2x Foo" "2" "Foo" "7"
    (by decide) (by decide) (by decide) (by decide) (by decide) rfl (by decide)).1

/-- C9: every stripped line of two or more digits is accepted by
`card_regex` through backtracking: the quantity group is all but the final
digit and the name group is exactly the final digit; the line is not blank
and not a section header, and the parser therefore takes the card path,
consulting the resolver on the one-digit name. -/
theorem spec_c9 (ds : List Char) (c : Char) (hne : ds ≠ [])
    (hds : ∀ x ∈ ds, py_isdigit x = true) (hc : py_isdigit c = true) :
    card_regex_match (String.mk (ds ++ [c])) = some (String.mk ds, String.mk [c])
    ∧ py_strip (String.mk (ds ++ [c])) = String.mk (ds ++ [c])
    ∧ py_lower (String.mk (ds ++ [c])) ≠ "#main"
    ∧ py_lower (String.mk (ds ++ [c])) ≠ "#extra"
    ∧ py_lower (String.mk (ds ++ [c])) ≠ "#side"
    ∧ ∀ (lookup : String → Option String) (st : ParseState),
        stepLine lookup st (String.mk (ds ++ [c]))
          = match lookup (String.mk [c]) with
            | some card_id =>
              if card_id = "" then st
              else appendCard st (natOfDigits (String.mk ds)) card_id
            | none => st := by
  obtain ⟨d, ds', hds'⟩ : ∃ d ds', ds = d :: ds' := by
    cases ds with
    | nil => exact absurd rfl hne
    | cons d ds' => exact ⟨d, ds', rfl⟩
  subst hds'
  have hall : ∀ x ∈ d :: ds' ++ [c], py_isdigit x = true := by
    intro x hx
    rcases List.mem_append.mp hx with h | h
    · exact hds x h
    · rw [List.mem_singleton] at h
      exact h ▸ hc
  have hmatch : card_regex_match (String.mk (d :: ds' ++ [c]))
      = some (String.mk (d :: ds'), String.mk [c]) :=
    card_regex_match_all_digits (hds d (by simp)) (fun x hx => hds x (by simp [hx])) hc
  have hstrip : py_strip (String.mk (d :: ds' ++ [c])) = String.mk (d :: ds' ++ [c]) :=
    py_strip_of_digits hall
  have hlow : py_lower (String.mk (d :: ds' ++ [c])) = String.mk (d :: ds' ++ [c]) :=
    py_lower_of_digits hall
  refine ⟨hmatch, hstrip, ?_, ?_, ?_, ?_⟩
  · rw [hlow]; exact digits_ne_main hall
  · rw [hlow]; exact digits_ne_extra hall
  · rw [hlow]; exact digits_ne_side hall
  · intro lookup st
    rw [stepLine_card_eq (by rw [hstrip]; exact mk_digits_ne_empty (by simp))
      (by rw [hstrip, hlow]; exact digits_ne_main hall)
      (by rw [hstrip, hlow]; exact digits_ne_extra hall)
      (by rw [hstrip, hlow]; exact digits_ne_side hall)
      (by rw [hstrip]; exact hmatch)]
    rw [py_strip_of_digits (by intro x hx; rw [List.mem_singleton] at hx; exact hx ▸ hc)]

/-- C9, witness: the bare numeric line `"10"` is accepted with quantity
group `"1"` and name `"0"`. -/
theorem spec_c9_witness :
    card_regex_match (String.mk (['1'] ++ ['0']))
      = some (String.mk ['1'], String.mk ['0']) :=
  (spec_c9 ['1'] '0' (by decide) (by decide) (by decide)).1

/-- C1, counterexample: the repository's only parser, `parse_deck_list`,
does not reproduce the sequences that produced a written file.  For the
triple `([], [], ["10"])` (even with a resolver that resolves every name to
itself) the re-parse yields `(["0"], [], [])`: the `!side` header of the
generated file is not recognized by `parse_deck_list`, and the identifier
line `"10"` is re-interpreted as quantity `1` of a card named `"0"`. -/
theorem spec_c1_counterexample :
    parse_deck_list (fun n => some n) (write_ydk_file [] [] ["10"])
      ≠ ([], [], ["10"]) := by
  decide

/-- C1 (amended): re-reading a generated output file with a sectioned
reader that follows the writer's own layout (`read_ydk`: `#main`/`#extra`/
`!side` headers switch sections, blank separator lines are skipped, every
other line is one identifier) exactly reproduces the three resolved-
identifier sequences, order and duplicates included, whenever every
identifier is a nonempty digit string.  The deck-list parser
`parse_deck_list` itself does not invert the writer (see the
counterexample). -/
theorem spec_c1 (m e s : List String) (h : ∀ x ∈ m ++ e ++ s, isIdStr x) :
    read_ydk (write_ydk_file m e s) = (m, e, s) :=
  read_ydk_write m e s h

/-- C1, witness: a concrete triple with duplicates round-trips through
write-then-read. -/
theorem spec_c1_witness :
    read_ydk (write_ydk_file ["10", "10"] ["7"] ["8"]) = (["10", "10"], ["7"], ["8"]) :=
  spec_c1 ["10", "10"] ["7"] ["8"] (by decide)

/-- C5: on the spec's worked example, parsing with the given resolver stub
produces one identifier in main and two identical identifiers in extra, the
sentinel line `DONE` contributes nothing, and the written file separates
the two sections with a blank line before `#extra`. -/
theorem spec_c5 :
    parse_deck_list exampleStub "#main\n1x Pot of Greed\n#extra\n2 Monster Reborn\nDONE"
      = (["55144522"], ["83764719", "83764719"], [])
    ∧ write_ydk_file ["55144522"] ["83764719", "83764719"] []
        = "#main\n55144522\n\n#extra\n83764719\n83764719\n"
    ∧ splitlines (write_ydk_file ["55144522"] ["83764719", "83764719"] [])
        = ["#main", "55144522", "", "#extra", "83764719", "83764719", ""] := by
  decide

/-- C6: for identifier sequences, the generated file contains the block
`"", "#extra"` (a blank line immediately followed by the `#extra` header)
exactly when the extra sequence is nonempty, and likewise `"", "!side"`
exactly when the side sequence is nonempty; the side section never uses a
`#side` header. -/
theorem spec_c6 (m e s : List String) (h : ∀ x ∈ m ++ e ++ s, isIdStr x) :
    ((∃ pre post, splitlines (write_ydk_file m e s) = pre ++ ["", "#extra"] ++ post)
      ↔ e ≠ [])
    ∧ ((∃ pre post, splitlines (write_ydk_file m e s) = pre ++ ["", "!side"] ++ post)
      ↔ s ≠ [])
    ∧ "#side" ∉ splitlines (write_ydk_file m e s) := by
  have hm : ∀ x ∈ m, isIdStr x := fun x hx => h x (by simp [hx])
  have he : ∀ x ∈ e, isIdStr x := fun x hx => h x (by simp [hx])
  have hs : ∀ x ∈ s, isIdStr x := fun x hx => h x (by simp [hx])
  rw [splitlines_write m e s
    (fun x hx => (isIdStr_facts (hm x hx)).2.2.2.2.2)
    (fun x hx => (isIdStr_facts (he x hx)).2.2.2.2.2)
    (fun x hx => (isIdStr_facts (hs x hx)).2.2.2.2.2)]
  refine ⟨⟨?_, ?_⟩, ⟨?_, ?_⟩, ?_⟩
  · rintro ⟨pre, post, heq⟩
    have hmem : "#extra" ∈ ydkLines m e s := by
      rw [heq]
      simp
    rcases mem_ydkLines hmem with h' | h' | h' | h' | h' | h' | h'
    · exact absurd h' (by decide)
    · exact absurd h' (by decide)
    · exact absurd rfl (isIdStr_facts (hm _ h')).2.2.1
    · exact absurd rfl (isIdStr_facts (he _ h')).2.2.1
    · exact absurd rfl (isIdStr_facts (hs _ h')).2.2.1
    · exact h'.1
    · exact absurd h'.2 (by decide)
  · intro he0
    refine ⟨["#main"] ++ padLines m,
      padLines e ++ ((if s = [] then [] else ["", "!side"] ++ padLines s) ++ [""]), ?_⟩
    unfold ydkLines
    rw [if_neg he0]
    simp [List.append_assoc]
  · rintro ⟨pre, post, heq⟩
    have hmem : "!side" ∈ ydkLines m e s := by
      rw [heq]
      simp
    rcases mem_ydkLines hmem with h' | h' | h' | h' | h' | h' | h'
    · exact absurd h' (by decide)
    · exact absurd h' (by decide)
    · exact absurd rfl (isIdStr_facts (hm _ h')).2.2.2.2.1
    · exact absurd rfl (isIdStr_facts (he _ h')).2.2.2.2.1
    · exact absurd rfl (isIdStr_facts (hs _ h')).2.2.2.2.1
    · exact absurd h'.2 (by decide)
    · exact h'.1
  · intro hs0
    refine ⟨["#main"] ++ padLines m
        ++ (if e = [] then [] else ["", "#extra"] ++ padLines e),
      padLines s ++ [""], ?_⟩
    unfold ydkLines
    rw [if_neg hs0]
    simp [List.append_assoc]
  · intro hmem
    rcases mem_ydkLines hmem with h' | h' | h' | h' | h' | h' | h'
    · exact absurd h' (by decide)
    · exact absurd h' (by decide)
    · exact absurd rfl (isIdStr_facts (hm _ h')).2.2.2.1
    · exact absurd rfl (isIdStr_facts (he _ h')).2.2.2.1
    · exact absurd rfl (isIdStr_facts (hs _ h')).2.2.2.1
    · exact absurd h'.2 (by decide)
    · exact absurd h'.2 (by decide)

/-- C6, witness: with one main identifier and one extra identifier, the
blank-line-plus-`#extra` block is present and no `#side` header appears. -/
theorem spec_c6_witness :
    (∃ pre post, splitlines (write_ydk_file ["1"] ["2"] []) = pre ++ ["", "#extra"] ++ post)
    ∧ "#side" ∉ splitlines (write_ydk_file ["1"] ["2"] []) :=
  ⟨(spec_c6 ["1"] ["2"] [] (by decide)).1.mpr (by decide),
   (spec_c6 ["1"] ["2"] [] (by decide)).2.2⟩

/-- C7: the written text always starts with the `#main` header line followed
by the joined main identifiers and a newline; at the line level the file
starts with `"#main"` followed by the main identifiers (or a single blank
line when the main sequence is empty, the artifact of joining the empty
sequence and appending the trailing newline). -/
theorem spec_c7 (m e s : List String)
    (hm : ∀ x ∈ m, '\n' ∉ x.data) (he : ∀ x ∈ e, '\n' ∉ x.data)
    (hs : ∀ x ∈ s, '\n' ∉ x.data) :
    (∃ r, write_ydk_file m e s = "#main\n" ++ join_nl m ++ "\n" ++ r)
    ∧ (∃ tail, splitlines (write_ydk_file m e s) = "#main" :: (padLines m ++ tail))
    ∧ (m = [] → ∃ tail, splitlines (write_ydk_file m e s) = "#main" :: "" :: tail) := by
  refine ⟨?_, ?_, ?_⟩
  · refine ⟨(if e = [] then "" else "\n#extra\n" ++ join_nl e ++ "\n")
      ++ (if s = [] then "" else "\n!side\n" ++ join_nl s ++ "\n"), ?_⟩
    unfold write_ydk_file
    apply String.ext
    simp [String.data_append, List.append_assoc]
  · rw [splitlines_write m e s hm he hs]
    refine ⟨(if e = [] then [] else ["", "#extra"] ++ padLines e)
      ++ ((if s = [] then [] else ["", "!side"] ++ padLines s) ++ [""]), ?_⟩
    unfold ydkLines
    simp [List.append_assoc]
  · intro hm0
    subst hm0
    rw [splitlines_write [] e s (by simp) he hs]
    refine ⟨(if e = [] then [] else ["", "#extra"] ++ padLines e)
      ++ ((if s = [] then [] else ["", "!side"] ++ padLines s) ++ [""]), ?_⟩
    unfold ydkLines padLines
    simp [List.append_assoc]

/-- C7, witness: with an empty main sequence the file's lines begin with
`"#main"` and then a blank line. -/
theorem spec_c7_witness :
    ∃ tail, splitlines (write_ydk_file [] ["2"] []) = "#main" :: "" :: tail :=
  (spec_c7 [] ["2"] [] (by decide) (by decide) (by decide)).2.2 rfl

/-- C8: the fixed extension `".ydk"` is appended exactly when the supplied
name does not already end with it: a name ending in `".ydk"` is kept, any
other name gets `".ydk"` appended, the name is returned unchanged iff it
already ends in `".ydk"`, and on the spec's examples `"MyDeck"` becomes
`"MyDeck.ydk"` while `"MyDeck.ydk"` stays unchanged. -/
theorem spec_c8 :
    (∀ file_name : String,
      py_endswith file_name ".ydk" = true → fix_name file_name = file_name)
    ∧ (∀ file_name : String,
      py_endswith file_name ".ydk" = false → fix_name file_name = file_name ++ ".ydk")
    ∧ (∀ file_name : String,
      fix_name file_name = file_name ↔ py_endswith file_name ".ydk" = true)
    ∧ fix_name "MyDeck" = "MyDeck.ydk"
    ∧ fix_name "MyDeck.ydk" = "MyDeck.ydk" := by
  have hkeep : ∀ file_name : String,
      py_endswith file_name ".ydk" = true → fix_name file_name = file_name := by
    intro fn hfn
    unfold fix_name
    rw [hfn]
    simp
  have happ : ∀ file_name : String,
      py_endswith file_name ".ydk" = false → fix_name file_name = file_name ++ ".ydk" := by
    intro fn hfn
    unfold fix_name
    rw [hfn]
    simp
  refine ⟨hkeep, happ, ?_, by decide, by decide⟩
  intro fn
  constructor
  · intro heq
    by_contra hne
    rw [Bool.not_eq_true] at hne
    have hfix := happ fn hne
    rw [heq] at hfix
    have h1 : fn.data = fn.data ++ (".ydk" : String).data := by
      conv_lhs => rw [hfix]
      rw [String.data_append]
    have h2 := congrArg List.length h1
    rw [List.length_append] at h2
    have h3 : (".ydk" : String).data.length = 4 := rfl
    omega
  · exact hkeep fn

/-- C8, witness: the two concrete hypotheses of the conditional parts are
dischargeable: `"MyDeck.ydk"` ends with the extension and is kept,
`"MyDeck"` does not and gets it appended. -/
theorem spec_c8_witness :
    py_endswith "MyDeck.ydk" ".ydk" = true
    ∧ fix_name "MyDeck.ydk" = "MyDeck.ydk"
    ∧ py_endswith "MyDeck" ".ydk" = false
    ∧ fix_name "MyDeck" = "MyDeck" ++ ".ydk" :=
  ⟨by decide, spec_c8.1 "MyDeck.ydk" (by decide), by decide,
   spec_c8.2.1 "MyDeck" (by decide)⟩

/-- C10: the extension check is case-sensitive: appending any four-character
suffix that lowercases to `".ydk"` but is not exactly `".ydk"` (an
uppercase or mixed-case variant such as `".YDK"`) produces a name that
fails the check, so `".ydk"` is appended again. -/
theorem spec_c10 (base t : String) (hlen : t.data.length = 4)
    (hlow : t.data.map Char.toLower = (".ydk" : String).data)
    (hne : t ≠ ".ydk") :
    fix_name (base ++ t) = (base ++ t) ++ ".ydk" := by
  unfold fix_name
  rw [py_endswith_append_ne hlen hne]
  simp

/-- C10, witness: `"MyDeck.YDK"` becomes `"MyDeck.YDK.ydk"`. -/
theorem spec_c10_witness :
    (".YDK" : String).data.length = 4
    ∧ fix_name ("MyDeck" ++ ".YDK") = ("MyDeck" ++ ".YDK") ++ ".ydk" :=
  ⟨by decide, spec_c10 "MyDeck" ".YDK" (by decide) (by decide) (by decide)⟩
